import Mathlib

/-!
# Verification of the flashblocks sidecar (danyalprout/node-reth)

Shallow embedding of the two core source files:

* `crates/flashblocks-rpc/src/flashblocks.rs` — the stream/reconnect loop and the
  reconstruction actor (`process_payload`, `update_flashblocks_index`,
  `get_and_set_transactions`, `get_and_set_txs_and_receipts`,
  `get_and_set_all_receipts`);
* `src/rpc.rs` — the RPC override layer (`transform_block`, `block_by_number`,
  `get_transaction_receipt`, `get_balance`, `call`).

Modelling conventions:

* `u64` is modelled as `Nat` (none of the verified properties involve wrap-around).
* Hashes, roots, bloom filters and addresses are opaque `String`s, matching the
  stringly-typed cache key namespace of the source.
* Wire decoding of raw transaction bytes into signed transactions is an external
  collaborator (reth); a raw `Bytes` value is modelled as the decoded transaction
  itself, so `try_into_block` always succeeds.
* Signer recovery and receipt building are external collaborators; they are
  modelled as data already carried by the transaction (`sender`) resp. as a record
  of the builder's inputs.
-/

namespace NodeReth

/-- An account address, kept as the string form used for cache keys. -/
abbrev Address := String

/-- A 32-byte hash / root, kept as its 0x-hex string form. -/
abbrev B256 := String

/-- A signed optimism transaction (`OpTransactionSigned`).  Hashing and signer
recovery are performed by external reth routines in the source; the model carries
their results as fields.  `sender = none` models `recover_signer()` returning
`Err`. -/
structure OpTransactionSigned where
  txHash : String
  sender : Option Address
  isDeposit : Bool
  maxFeePerGas : Nat
  deriving DecidableEq, Repr

/-- Raw transaction bytes (`alloy_primitives::Bytes`).  Wire decoding is external
to the core (spec §1 excludes it), so the model identifies the encoding with the
decoded transaction. -/
abbrev TxBytes := OpTransactionSigned

/-- A withdrawal, opaque to every verified property. -/
abbrev Withdrawal := Nat

/-- An optimism receipt (`OpReceipt`), reduced to the fields the core inspects. -/
structure OpReceipt where
  status : Bool
  cumulative_gas_used : Nat
  deriving DecidableEq, Repr

/-- `rollup_boost::primitives::ExecutionPayloadBaseV1`: the immutable per-block
fields carried by the index-0 update. -/
structure ExecutionPayloadBaseV1 where
  parent_hash : B256
  parent_beacon_block_root : B256
  fee_recipient : Address
  block_number : Nat
  gas_limit : Nat
  timestamp : Nat
  prev_randao : B256
  extra_data : String
  base_fee_per_gas : Nat
  deriving DecidableEq, Repr

/-- `rollup_boost::primitives::ExecutionPayloadFlashblockDeltaV1`: the incremental
fields of one update. -/
structure ExecutionPayloadFlashblockDeltaV1 where
  transactions : List TxBytes
  withdrawals : List Withdrawal
  state_root : B256
  receipts_root : B256
  logs_bloom : String
  gas_used : Nat
  block_hash : B256
  deriving DecidableEq, Repr

/-- The decoded `metadata` JSON of an update (`Metadata` in flashblocks.rs).  The
two hash maps are modelled as association lists. -/
structure Metadata where
  receipts : List (String × OpReceipt)
  new_account_balances : List (Address × String)
  block_number : Nat
  deriving DecidableEq, Repr

/-- `FlashblocksPayloadV1`, one message from the stream.  The raw JSON `metadata`
field is modelled post-deserialization: `none` stands for a metadata payload that
fails to deserialize as `Metadata` (the source's `serde_json::from_value` error
branch). -/
structure FlashblocksPayloadV1 where
  index : Nat
  base : Option ExecutionPayloadBaseV1
  diff : ExecutionPayloadFlashblockDeltaV1
  metadata : Option Metadata
  deriving DecidableEq, Repr

/-- The header part of a materialized `OpBlock`. -/
structure OpHeader where
  parent_hash : B256
  fee_recipient : Address
  state_root : B256
  receipts_root : B256
  logs_bloom : String
  prev_randao : B256
  number : Nat
  gas_limit : Nat
  gas_used : Nat
  timestamp : Nat
  extra_data : String
  base_fee_per_gas : Nat
  block_hash : B256
  deriving DecidableEq, Repr

/-- `reth_optimism_primitives::OpBlock`, reduced to header + body fields the core
reads. -/
structure OpBlock where
  header : OpHeader
  transactions : List OpTransactionSigned
  withdrawals : List Withdrawal
  deriving DecidableEq, Repr

/-- `OpBlock.number` accessor (the source reads `block.number` through header
delegation). -/
def OpBlock.number (b : OpBlock) : Nat := b.header.number

/-- Rust `OpBlock::default()`: all-zero header, no transactions. -/
instance : Inhabited OpBlock :=
  ⟨{ header := { parent_hash := "", fee_recipient := "", state_root := "",
                 receipts_root := "", logs_bloom := "", prev_randao := "",
                 number := 0, gas_limit := 0, gas_used := 0, timestamp := 0,
                 extra_data := "", base_fee_per_gas := 0, block_hash := "" },
     transactions := [], withdrawals := [] }⟩

/-- `alloy_rpc_types_engine::ExecutionPayloadV1`. -/
structure ExecutionPayloadV1 where
  parent_hash : B256
  fee_recipient : Address
  state_root : B256
  receipts_root : B256
  logs_bloom : String
  prev_randao : B256
  block_number : Nat
  gas_limit : Nat
  gas_used : Nat
  timestamp : Nat
  extra_data : String
  base_fee_per_gas : Nat
  block_hash : B256
  transactions : List TxBytes
  deriving DecidableEq, Repr

/-- `alloy_rpc_types_engine::ExecutionPayloadV2`. -/
structure ExecutionPayloadV2 where
  withdrawals : List Withdrawal
  payload_inner : ExecutionPayloadV1
  deriving DecidableEq, Repr

/-- `alloy_rpc_types_engine::ExecutionPayloadV3`. -/
structure ExecutionPayloadV3 where
  blob_gas_used : Nat
  excess_blob_gas : Nat
  payload_inner : ExecutionPayloadV2
  deriving DecidableEq, Repr

/-- `ExecutionPayloadV3::try_into_block`.  The conversion decodes each raw
transaction (external wire decoding, identified with the transaction in this
model) and copies the payload fields into a block; it therefore always succeeds
here, while the source's error branch covers undecodable bytes. -/
def ExecutionPayloadV3.try_into_block (p : ExecutionPayloadV3) : Option OpBlock :=
  some
    { header :=
        { parent_hash := p.payload_inner.payload_inner.parent_hash
          fee_recipient := p.payload_inner.payload_inner.fee_recipient
          state_root := p.payload_inner.payload_inner.state_root
          receipts_root := p.payload_inner.payload_inner.receipts_root
          logs_bloom := p.payload_inner.payload_inner.logs_bloom
          prev_randao := p.payload_inner.payload_inner.prev_randao
          number := p.payload_inner.payload_inner.block_number
          gas_limit := p.payload_inner.payload_inner.gas_limit
          gas_used := p.payload_inner.payload_inner.gas_used
          timestamp := p.payload_inner.payload_inner.timestamp
          extra_data := p.payload_inner.payload_inner.extra_data
          base_fee_per_gas := p.payload_inner.payload_inner.base_fee_per_gas
          block_hash := p.payload_inner.payload_inner.block_hash }
      transactions := p.payload_inner.payload_inner.transactions
      withdrawals := p.payload_inner.withdrawals }

/-! ## The state cache

`crate::cache::Cache` is code of this repository that is not under `src/` (only
its callers are), so it is modelled from the spec. -/

/-- The typed payloads the core ever stores in the cache. -/
inductive CacheValue where
  | base (b : ExecutionPayloadBaseV1)
  | block (b : OpBlock)
  | bytesList (l : List TxBytes)
  | strList (l : List String)
  | receiptList (l : List OpReceipt)
  | rcpt (r : OpReceipt)
  | tx (t : OpTransactionSigned)
  | nat (n : Nat)
  | str (s : String)
  | addr (a : Address)
  deriving DecidableEq, Repr

/-- One cache entry: a typed payload plus an optional absolute expiry instant. -/
structure CacheEntry where
  value : CacheValue
  expiry : Option Nat
  deriving DecidableEq, Repr

/-- Modelled from the spec: `crate::cache::Cache` (StateCache, spec §4.1) is not
under `src/`.  "`set(key, value, ttlSeconds?)`; `get<T>(key) → Option<T>`.
Values are stored as opaque serialized payloads and decoded to the requested type
on read; a decode mismatch or missing key yields absent.  TTL is evaluated lazily
at read time; an expired entry is never returned as present."  Writes cannot fail
in the model (the source logs and skips a failed sub-step). -/
abbrev Cache := String → Option CacheEntry

/-- `Cache::set` with an optional TTL, at logical instant `now`. -/
def Cache.set (c : Cache) (k : String) (v : CacheValue) (ttl : Option Nat)
    (now : Nat) : Cache :=
  fun k' => if k' = k then some ⟨v, ttl.map (now + ·)⟩ else c k'

/-- Raw read at instant `now`: an entry whose expiry has passed behaves as
absent. -/
def Cache.getRaw (c : Cache) (k : String) (now : Nat) : Option CacheValue :=
  match c k with
  | none => none
  | some e =>
    match e.expiry with
    | none => some e.value
    | some t => if now < t then some e.value else none

/-- `get::<ExecutionPayloadBaseV1>`. -/
def Cache.getBase (c : Cache) (k : String) (now : Nat) :
    Option ExecutionPayloadBaseV1 :=
  match c.getRaw k now with
  | some (.base b) => some b
  | _ => none

/-- `get::<OpBlock>`. -/
def Cache.getBlock (c : Cache) (k : String) (now : Nat) : Option OpBlock :=
  match c.getRaw k now with
  | some (.block b) => some b
  | _ => none

/-- `get::<Vec<Bytes>>`. -/
def Cache.getBytesList (c : Cache) (k : String) (now : Nat) :
    Option (List TxBytes) :=
  match c.getRaw k now with
  | some (.bytesList l) => some l
  | _ => none

/-- `get::<Vec<String>>`. -/
def Cache.getStrList (c : Cache) (k : String) (now : Nat) :
    Option (List String) :=
  match c.getRaw k now with
  | some (.strList l) => some l
  | _ => none

/-- `get::<Vec<OpReceipt>>`. -/
def Cache.getReceiptList (c : Cache) (k : String) (now : Nat) :
    Option (List OpReceipt) :=
  match c.getRaw k now with
  | some (.receiptList l) => some l
  | _ => none

/-- `get::<OpReceipt>`. -/
def Cache.getReceipt (c : Cache) (k : String) (now : Nat) : Option OpReceipt :=
  match c.getRaw k now with
  | some (.rcpt r) => some r
  | _ => none

/-- `get::<OpTransactionSigned>`. -/
def Cache.getTx (c : Cache) (k : String) (now : Nat) :
    Option OpTransactionSigned :=
  match c.getRaw k now with
  | some (.tx t) => some t
  | _ => none

/-- `get::<u64>`. -/
def Cache.getNat (c : Cache) (k : String) (now : Nat) : Option Nat :=
  match c.getRaw k now with
  | some (.nat n) => some n
  | _ => none

/-- One hexadecimal digit. -/
def hexDigitVal (ch : Char) : Option Nat :=
  if '0' ≤ ch ∧ ch ≤ '9' then some (ch.toNat - '0'.toNat)
  else if 'a' ≤ ch ∧ ch ≤ 'f' then some (ch.toNat - 'a'.toNat + 10)
  else if 'A' ≤ ch ∧ ch ≤ 'F' then some (ch.toNat - 'A'.toNat + 10)
  else none

/-- Parse a list of hex digits (most significant first). -/
def hexDigitsVal : List Char → Nat → Option Nat
  | [], acc => some acc
  | ch :: rest, acc =>
    match hexDigitVal ch with
    | some d => hexDigitsVal rest (acc * 16 + d)
    | none => none

/-- Parse a `0x…` quantity string as a number, the wire form of `U256`
balances. -/
def parseHexU256 (s : String) : Option Nat :=
  match s.data with
  | '0' :: 'x' :: ch :: rest => hexDigitsVal (ch :: rest) 0
  | _ => none

/-- Modelled from the spec: `get::<U256>` on a balance entry.  The actor stores
the balance as the metadata's hex string (spec §3 "Balance index: address →
latest known hex balance string") and the RPC layer "read[s] the indexed value"
(spec §4.4) as a `U256`; the serialized-payload decode is modelled as parsing the
stored hex string. -/
def Cache.getU256 (c : Cache) (k : String) (now : Nat) : Option Nat :=
  match c.getRaw k now with
  | some (.str s) => parseHexU256 s
  | _ => none

/-! ## Cache key namespace (spec §6) -/

/-- Rust `{:?}` formatting of a `String` value: the debug form is quoted. -/
def rustDebugStr (s : String) : String := "\"" ++ s ++ "\""

/-- `format!("base:{:?}", block_number)`. -/
def baseKey (n : Nat) : String := "base:" ++ toString n

/-- `format!("block:{:?}", block_number)` (RPC side reads `block:{}`; identical
for `u64`). -/
def blockKey (n : Nat) : String := "block:" ++ toString n

/-- `format!("diff:transactions:{:?}", block_number)`. -/
def diffTransactionsKey (n : Nat) : String := "diff:transactions:" ++ toString n

/-- `format!("tx_hashes:{}", block_number)`. -/
def txHashesKey (n : Nat) : String := "tx_hashes:" ++ toString n

/-- `format!("receipt:{:?}", tx_hash)` — the `{:?}` on a `String` adds quotes,
identically on the actor and RPC sides. -/
def receiptKey (h : String) : String := "receipt:" ++ rustDebugStr h

/-- `format!("receipt_block:{:?}", tx_hash)`. -/
def receiptBlockKey (h : String) : String := "receipt_block:" ++ rustDebugStr h

/-- `format!("tx_idx:{}", tx_hash)`. -/
def txIdxKey (h : String) : String := "tx_idx:" ++ h

/-- `format!("tx_sender:{}", tx_hash)`. -/
def txSenderKey (h : String) : String := "tx_sender:" ++ h

/-- `format!("tx_block_number:{}", tx_hash)`. -/
def txBlockNumberKey (h : String) : String := "tx_block_number:" ++ h

/-- `format!("tx_count:{}:{}", from, block_number)`. -/
def txCountKey (sender : Address) (n : Nat) : String :=
  "tx_count:" ++ sender ++ ":" ++ toString n

/-- `format!("pending_receipts:{:?}", block_number)`. -/
def pendingReceiptsKey (n : Nat) : String :=
  "pending_receipts:" ++ toString n

/-! ## The reconstruction actor (`flashblocks.rs`) -/

/-- `update_flashblocks_index` (flashblocks.rs 308-332).  Returns the updated
cache together with the flash-block count reported for the just-finished block
(the `flashblocks_in_block.record(prev_highest_index + 1)` metric emission),
`none` when nothing is reported. -/
def update_flashblocks_index (index : Nat) (cache : Cache) (now : Nat) :
    Cache × Option Nat :=
  if index = 0 then
    let reported := (cache.getNat "highest_payload_index" now).map (· + 1)
    (cache.set "highest_payload_index" (.nat 0) (some 10) now, reported)
  else
    let current_highest := (cache.getNat "highest_payload_index" now).getD 0
    if index > current_highest then
      (cache.set "highest_payload_index" (.nat index) (some 10) now, none)
    else
      (cache, none)

/-- `get_and_set_transactions` (flashblocks.rs 334-362): reset on index 0, else
append to the cached cumulative list; the error branch fires before any write. -/
def get_and_set_transactions (transactions : List TxBytes) (payload_index : Nat)
    (block_number : Nat) (cache : Cache) (now : Nat) :
    Except String (List TxBytes × Cache) :=
  let txsE : Except String (List TxBytes) :=
    if payload_index = 0 then .ok transactions
    else
      match cache.getBytesList (diffTransactionsKey block_number) now with
      | some existing => .ok (existing ++ transactions)
      | none => .error "Failed to get pending transactions from cache"
  match txsE with
  | .error e => .error e
  | .ok txs =>
    .ok (txs, cache.set (diffTransactionsKey block_number) (.bytesList txs)
      (some 10) now)

/-- Association-list lookup standing in for `HashMap::get`. -/
def lookupAssoc (l : List (String × OpReceipt)) (k : String) :
    Option OpReceipt :=
  match l with
  | [] => none
  | (k', v) :: rest => if k = k' then some v else lookupAssoc rest k

/-- The `existing_tx.is_none()` block of the transaction loop
(flashblocks.rs 386-426): populate the raw-tx, index, per-sender count, sender
and containing-block entries when the transaction is not yet cached.  A signer
recovery failure (`sender = none`) skips the sender-dependent writes. -/
def cache_tx_entries (block_number : Nat) (now : Nat) (cache : Cache)
    (idx : Nat) (transaction : OpTransactionSigned) : Cache :=
  match cache.getTx transaction.txHash now with
  | some _ => cache
  | none =>
    let tx_hash := transaction.txHash
    let cache := cache.set tx_hash (.tx transaction) (some 10) now
    let cache := cache.set (txIdxKey tx_hash) (.nat idx) (some 10) now
    match transaction.sender with
    | some sender =>
      let current_count :=
        (cache.getNat (txCountKey sender block_number) now).getD 0
      let cache := cache.set (txCountKey sender block_number)
        (.nat (current_count + 1)) (some 10) now
      let cache := cache.set (txSenderKey tx_hash) (.addr sender) (some 10) now
      cache.set (txBlockNumberKey tx_hash) (.nat block_number) (some 10) now
    | none => cache

/-- The body of the `for (idx, transaction)` loop of
`get_and_set_txs_and_receipts` (flashblocks.rs 378-448), folded over
`(cache, tx_hashes, diff_receipts)`. -/
def processOneTx (block_number : Nat) (metadata : Metadata) (now : Nat)
    (acc : Cache × List String × List OpReceipt)
    (it : Nat × OpTransactionSigned) : Cache × List String × List OpReceipt :=
  let tx_hash := it.2.txHash
  -- Add transaction hash to the ordered list if not already present
  let tx_hashes :=
    if acc.2.1.contains tx_hash then acc.2.1 else acc.2.1 ++ [tx_hash]
  let cache := cache_tx_entries block_number now acc.1 it.1 it.2
  match lookupAssoc metadata.receipts tx_hash with
  | some receipt =>
    ((cache.set (receiptKey tx_hash) (.rcpt receipt) (some 10) now).set
        (receiptBlockKey tx_hash) (.nat block_number) (some 10) now,
      tx_hashes, acc.2.2 ++ [receipt])
  | none => (cache, tx_hashes, acc.2.2)

/-- `get_and_set_txs_and_receipts` (flashblocks.rs 364-455).  The source returns
`Result` but only ever `Ok` (write failures are logged and `continue`); the model
returns the diff-receipt batch and the updated cache. -/
def get_and_set_txs_and_receipts (block : OpBlock) (block_number : Nat)
    (cache : Cache) (metadata : Metadata) (now : Nat) :
    List OpReceipt × Cache :=
  let init_hashes := (cache.getStrList (txHashesKey block_number) now).getD []
  let folded := (block.transactions.enum).foldl
    (processOneTx block_number metadata now) (cache, init_hashes, [])
  let cache := folded.1.set (txHashesKey block_number) (.strList folded.2.1)
    (some 10) now
  (folded.2.2, cache)

/-- `get_and_set_all_receipts` (flashblocks.rs 457-488): reset on index 0, else
append to the cumulative per-block receipt list; the error branch fires before
any write. -/
def get_and_set_all_receipts (payload_index : Nat) (block_number : Nat)
    (cache : Cache) (diff_receipts : List OpReceipt) (now : Nat) :
    Except String (List OpReceipt × Cache) :=
  let receiptsE : Except String (List OpReceipt) :=
    if payload_index = 0 then .ok diff_receipts
    else
      match cache.getReceiptList (pendingReceiptsKey block_number) now with
      | some existing => .ok (existing ++ diff_receipts)
      | none => .error "Failed to get pending receipts from cache"
  match receiptsE with
  | .error e => .error e
  | .ok receipts =>
    .ok (receipts, cache.set (pendingReceiptsKey block_number)
      (.receiptList receipts) (some 10) now)

/-- The balance loop of `process_payload` (flashblocks.rs 288-293): overwrite
every address→balance entry from `metadata.new_account_balances`. -/
def store_balances (balances : List (Address × String)) (cache : Cache)
    (now : Nat) : Cache :=
  balances.foldl (fun c ab => c.set ab.1 (.str ab.2) (some 10) now) cache

/-- Assembly of the full execution payload (flashblocks.rs 216-238).  Note the
fixed `base_fee_per_gas: U256::from(1000)` in the source, ignoring
`base.base_fee_per_gas`. -/
def assemble_execution_payload (base : ExecutionPayloadBaseV1)
    (diff : ExecutionPayloadFlashblockDeltaV1) (transactions : List TxBytes) :
    ExecutionPayloadV3 :=
  { blob_gas_used := 0
    excess_blob_gas := 0
    payload_inner :=
      { withdrawals := diff.withdrawals
        payload_inner :=
          { parent_hash := base.parent_hash
            fee_recipient := base.fee_recipient
            state_root := diff.state_root
            receipts_root := diff.receipts_root
            logs_bloom := diff.logs_bloom
            prev_randao := base.prev_randao
            block_number := base.block_number
            gas_limit := base.gas_limit
            gas_used := diff.gas_used
            timestamp := base.timestamp
            extra_data := base.extra_data
            base_fee_per_gas := 1000
            block_hash := diff.block_hash
            transactions := transactions } } }

/-- `process_payload` from the transaction-resolution step onwards
(flashblocks.rs 203-305), after the base has been resolved.  Every `return`
keeps the cache writes performed so far (the source mutates a shared cache). -/
def process_body (index : Nat) (metadata : Metadata)
    (diff : ExecutionPayloadFlashblockDeltaV1) (base : ExecutionPayloadBaseV1)
    (cache : Cache) (now : Nat) : Cache :=
  match get_and_set_transactions diff.transactions index metadata.block_number
      cache now with
  | .error _ => cache
  | .ok (transactions, cache) =>
    let execution_payload := assemble_execution_payload base diff transactions
    match execution_payload.try_into_block with
    | none => cache
    | some block =>
      let cache := cache.set "pending" (.block block) (some 10) now
      let cache := cache.set (blockKey metadata.block_number) (.block block)
        (some 10) now
      let gr := get_and_set_txs_and_receipts block metadata.block_number cache
        metadata now
      match get_and_set_all_receipts index metadata.block_number gr.2 gr.1
          now with
      | .error _ => gr.2
      | .ok (_, cache) => store_balances metadata.new_account_balances cache now

/-- `process_payload`, base-resolution step (flashblocks.rs 186-201): a carried
base is cached under the per-block key, otherwise the cached one is loaded and
its absence aborts. -/
def process_resolve_base (payload : FlashblocksPayloadV1) (metadata : Metadata)
    (cache : Cache) (now : Nat) : Cache :=
  match payload.base with
  | some base =>
    let cache := cache.set (baseKey metadata.block_number) (.base base)
      (some 10) now
    process_body payload.index metadata payload.diff base cache now
  | none =>
    match cache.getBase (baseKey metadata.block_number) now with
    | some base => process_body payload.index metadata payload.diff base cache now
    | none => cache

/-- `process_payload` after metadata deserialization (flashblocks.rs 162-305):
zero-index gate, highest-index tracking, stale-block check, then the rest. -/
def process_with_metadata (payload : FlashblocksPayloadV1) (metadata : Metadata)
    (cache : Cache) (now : Nat) : Cache :=
  let block_number := metadata.block_number
  -- Skip if index is not 0 and base is not cached
  if payload.index ≠ 0 ∧ (cache.getBase (baseKey block_number) now).isNone then
    cache
  else
    -- Track flashblock indices and record metrics
    let cache := (update_flashblocks_index payload.index cache now).1
    -- Prevent updating to older blocks
    match cache.getBlock "pending" now with
    | some current_block =>
      if current_block.number > block_number then cache
      else process_resolve_base payload metadata cache now
    | none => process_resolve_base payload metadata cache now

/-- `process_payload` (flashblocks.rs 149-306).  `payload.metadata = none`
models the metadata-deserialization failure branch (drop, no mutation). -/
def process_payload (payload : FlashblocksPayloadV1) (cache : Cache)
    (now : Nat) : Cache :=
  match payload.metadata with
  | none => cache
  | some metadata => process_with_metadata payload metadata cache now

/-! ## The reconnect loop's backoff state (`FlashblocksClient::init`,
flashblocks.rs 69-131)

`backoff` is declared once, outside the `loop`; a failed `connect_async` sleeps
for the current backoff and then doubles it (capped at `MAX_BACKOFF`); a
successful connection runs the read loop and falls back into `loop` without
touching `backoff`. -/

/-- `std::time::Duration::from_secs(1)`, the declared initial backoff. -/
def initial_backoff : Nat := 1

/-- `const MAX_BACKOFF: Duration = Duration::from_secs(10)`. -/
def MAX_BACKOFF : Nat := 10

/-- Outcome of one `connect_async` attempt of the reconnect loop. -/
inductive ConnAttempt where
  | connected
  | failed
  deriving DecidableEq, Repr

/-- One iteration of the reconnect loop, as it affects the backoff state:
returns the new backoff and the delay slept before the next attempt (`none` on
a successful connection, which re-enters the loop immediately). -/
def backoff_step (backoff : Nat) : ConnAttempt → Nat × Option Nat
  | .connected => (backoff, none)
  | .failed => (min (backoff * 2) MAX_BACKOFF, some backoff)

/-- Run the reconnect loop over a sequence of attempt outcomes from a given
backoff state, collecting the slept delays in order. -/
def backoff_run_from (backoff : Nat) : List ConnAttempt → Nat × List Nat
  | [] => (backoff, [])
  | attempt :: rest =>
    let s := backoff_step backoff attempt
    let r := backoff_run_from s.1 rest
    (r.1, s.2.toList ++ r.2)

/-- Run the reconnect loop from process start (`backoff = 1`). -/
def backoff_run (attempts : List ConnAttempt) : Nat × List Nat :=
  backoff_run_from initial_backoff attempts

/-- The number of failed attempts in a sequence. -/
def failCount (attempts : List ConnAttempt) : Nat :=
  attempts.countP (· = ConnAttempt.failed)

/-! ## The RPC override layer (`rpc.rs`) -/

/-- `alloy_eips::BlockNumberOrTag`, reduced to the cases the overrides
distinguish. -/
inductive BlockNumberOrTag where
  | pending
  | latest
  | number (n : Nat)
  deriving DecidableEq, Repr

/-- `alloy_eips::BlockId`, reduced to what `is_pending` distinguishes;
`BlockId::default()` is the latest tag. -/
abbrev BlockId := BlockNumberOrTag

/-- `op_alloy_rpc_types::Transaction`, the RPC form of a transaction produced by
`transform_tx`. -/
structure RpcTransaction where
  inner : OpTransactionSigned
  sender : Address
  block_hash : Option B256
  block_number : Option Nat
  transaction_index : Option Nat
  effective_gas_price : Option Nat
  deriving DecidableEq, Repr

/-- `alloy_rpc_types::BlockTransactions`. -/
inductive BlockTransactions where
  | full (txs : List RpcTransaction)
  | hashes (hs : List String)
  deriving DecidableEq, Repr

/-- `RpcBlock<Optimism>` as constructed by `transform_block`: a sealed header
(sealing is external hashing, modelled as the header itself) plus transactions,
uncles and withdrawals. -/
structure RpcBlock where
  header : OpHeader
  transactions : BlockTransactions
  uncles : List B256
  withdrawals : Option (List Withdrawal)
  deriving DecidableEq, Repr

/-- `EthApiExt::transform_tx` (rpc.rs 124-176).  The deposit-receipt details
read from the cache feed only `deposit_nonce`/`deposit_receipt_version`, which
no verified property inspects and the modelled receipt does not carry; the
effective gas price follows the source (`0` for deposits, else the `base_fee`
mapping with `max_fee_per_gas` fallback). -/
def transform_tx (tx : OpTransactionSigned) (sender : Address)
    (block_number : Option Nat) (idx : Option Nat) (base_fee : Option Nat) :
    RpcTransaction :=
  let effective_gas_price :=
    if tx.isDeposit then 0
    else match base_fee with
      | some bf => bf
      | none => tx.maxFeePerGas
  { inner := tx
    sender := sender
    block_hash := none
    block_number := block_number
    transaction_index := idx
    effective_gas_price := some effective_gas_price }

/-- `EthApiExt::transform_block` (rpc.rs 85-122): expand transactions to full
objects (with recovered sender) when `full`, else hashes only; uncles are always
empty and withdrawals always dropped.  `recover_signers().unwrap()` is external
recovery, modelled by the `sender` field (defaulted where recovery would
panic). -/
def transform_block (block : OpBlock) (full : Bool) : RpcBlock :=
  let header := block.header
  let transactions := block.transactions
  if full then
    let converted_txs := (transactions.enum).map fun it =>
      transform_tx it.2 (it.2.sender.getD "") (some block.number) (some it.1)
        none
    { header := header
      transactions := .full converted_txs
      uncles := []
      withdrawals := none }
  else
    { header := header
      transactions := .hashes (transactions.map (·.txHash))
      uncles := []
      withdrawals := none }

/-- Result of an overridden RPC method: served from this layer, or delegated to
BaseNode (whose behavior is external). -/
inductive RpcServed (α : Type) where
  | served (a : α)
  | delegated
  deriving DecidableEq, Repr

/-- `EthApiExt::block_by_number` (rpc.rs 237-259): for the pending tag, serve
the cached pending block through `transform_block` or `Ok(None)`; every other
tag delegates to BaseNode. -/
def block_by_number (cache : Cache) (now : Nat) (number : BlockNumberOrTag)
    (full : Bool) : RpcServed (Option RpcBlock) :=
  match number with
  | .pending =>
    match cache.getBlock "pending" now with
    | some block => .served (some (transform_block block full))
    | none => .served none
  | _ => .delegated

/-- The wire receipt built by `EthApiExt::transform_receipt` (rpc.rs 178-227).
`OpReceiptBuilder` is an external collaborator; the model records its inputs
(the cached transaction, the receipt, the cached block, the cached index and the
cumulative per-block receipts). -/
structure RpcReceipt where
  tx : Option OpTransactionSigned
  receipt : OpReceipt
  block : Option OpBlock
  tx_index : Option Nat
  all_receipts : Option (List OpReceipt)
  deriving DecidableEq, Repr

/-- `EthApiExt::transform_receipt` (rpc.rs 178-227): gather the cached
transaction, containing block, transaction index and cumulative receipts, and
hand them to the external `OpReceiptBuilder`.  The source `unwrap`s each cache
read; the model keeps them as `Option`s inside the builder input. -/
def transform_receipt (cache : Cache) (now : Nat) (receipt : OpReceipt)
    (tx_hash : String) (block_number : Nat) : RpcReceipt :=
  { tx := cache.getTx tx_hash now
    receipt := receipt
    block := cache.getBlock (blockKey block_number) now
    tx_index := cache.getNat (txIdxKey tx_hash) now
    all_receipts := cache.getReceiptList (pendingReceiptsKey block_number) now }

/-- `RpcResult<Option<RpcReceipt>>`: BaseNode's answer, or an error. -/
inductive ReceiptResult where
  | ok (r : Option RpcReceipt)
  | err (e : String)
  deriving DecidableEq, Repr

/-- `EthApiExt::get_transaction_receipt` (rpc.rs 261-288).  `base_result` is the
answer of `EthTransactions::transaction_receipt` on BaseNode (external); only a
successful "not found" consults the cache, every other answer is returned
unchanged. -/
def get_transaction_receipt (base_result : ReceiptResult) (cache : Cache)
    (now : Nat) (tx_hash : String) : ReceiptResult :=
  match base_result with
  | .ok none =>
    match cache.getReceipt (receiptKey tx_hash) now with
    | some receipt =>
      .ok (some (transform_receipt cache now receipt tx_hash
        ((cache.getNat (receiptBlockKey tx_hash) now).getD 0)))
    | none => base_result
  | _ => base_result

/-- `EthApiExt::get_balance` (rpc.rs 290-307): with a pending tag and a cached
(decodable, unexpired) balance, serve it; otherwise delegate to
`EthState::balance`. -/
def get_balance (cache : Cache) (now : Nat) (address : Address)
    (block_number : Option BlockId) : RpcServed Nat :=
  let block_id := block_number.getD .latest
  if block_id = .pending then
    match cache.getU256 address now with
    | some balance => .served balance
    | none => .delegated
  else
    .delegated

/-- `alloy_rpc_types::TransactionRequest`, distinguishing requests converted
from a pending-block transaction (`TransactionRequest::from_transaction`) from
the caller-supplied request. -/
inductive TransactionRequest where
  | from_transaction (t : OpTransactionSigned)
  | request (id : Nat)
  deriving DecidableEq, Repr

/-- `EthCallResponse`. -/
structure EthCallResponse where
  value : Option (List Nat)
  deriving DecidableEq, Repr

/-- `EthApiExt::call` (rpc.rs 352-396) for a pending-tagged request.
`call_many` is BaseNode's simulation facility (external): given the single
bundle built here it returns one response per transaction of the bundle, in
bundle order.  The source keeps `responses.first()` and its `value`
(`unwrap_or_default`). -/
def eth_call (call_many : List TransactionRequest → List EthCallResponse)
    (cache : Cache) (now : Nat) (transaction : TransactionRequest)
    (block_number : Option BlockId) : RpcServed (List Nat) :=
  let block_id := block_number.getD .latest
  if block_id = .pending then
    let transaction_requests :=
      ((cache.getBlock "pending" now).getD default).transactions.map
        (TransactionRequest.from_transaction ·)
    let transaction_requests := transaction_requests ++ [transaction]
    let responses := call_many transaction_requests
    .served (match responses.head? with
      | some r => r.value.getD []
      | none => [])
  else
    .delegated

/-! ## Concrete fixtures for witnesses and counterexamples -/

namespace Fix

/-- A first concrete transaction. -/
def txA : OpTransactionSigned :=
  { txHash := "0xaa", sender := some "0xs1", isDeposit := false,
    maxFeePerGas := 50 }

/-- A second concrete transaction. -/
def txB : OpTransactionSigned :=
  { txHash := "0xbb", sender := some "0xs2", isDeposit := false,
    maxFeePerGas := 60 }

/-- A concrete base for block 1 whose upstream base fee (777) differs from the
placeholder 1000. -/
def base1 : ExecutionPayloadBaseV1 :=
  { parent_hash := "0xp1", parent_beacon_block_root := "0xbr",
    fee_recipient := "0xfee", block_number := 1, gas_limit := 1000000,
    timestamp := 1234567890, prev_randao := "0xrand", extra_data := "",
    base_fee_per_gas := 777 }

/-- An empty diff. -/
def diff0 : ExecutionPayloadFlashblockDeltaV1 :=
  { transactions := [], withdrawals := [], state_root := "0xs0",
    receipts_root := "0xr0", logs_bloom := "", gas_used := 0,
    block_hash := "0xh0" }

/-- A receipt for `txA`. -/
def rcptA : OpReceipt := { status := true, cumulative_gas_used := 21000 }

/-- A receipt for `txB`. -/
def rcptB : OpReceipt := { status := true, cumulative_gas_used := 42000 }

/-- Metadata of the index-0 update for block 1. -/
def meta1 : Metadata :=
  { receipts := [], new_account_balances := [], block_number := 1 }

/-- The index-0 update for block 1 (carries the base, no transactions). -/
def u0 : FlashblocksPayloadV1 :=
  { index := 0, base := some base1, diff := diff0, metadata := some meta1 }

/-- The index-1 update for block 1: transactions `[A]`, a receipt for `A` and
one balance entry. -/
def u1 : FlashblocksPayloadV1 :=
  { index := 1, base := none
    diff := { transactions := [txA], withdrawals := [], state_root := "0xs1",
              receipts_root := "0xr1", logs_bloom := "", gas_used := 21000,
              block_hash := "0xh1" }
    metadata := some
      { receipts := [("0xaa", rcptA)]
        new_account_balances := [("0xaddr1", "0x1234")]
        block_number := 1 } }

/-- The index-2 update for block 1: transactions `[B, A]` (re-sending `A`). -/
def u2 : FlashblocksPayloadV1 :=
  { index := 2, base := none
    diff := { transactions := [txB, txA], withdrawals := [],
              state_root := "0xs2", receipts_root := "0xr2", logs_bloom := "",
              gas_used := 42000, block_hash := "0xh2" }
    metadata := some
      { receipts := [("0xaa", rcptA), ("0xbb", rcptB)]
        new_account_balances := []
        block_number := 1 } }

/-- The empty cache. -/
def emptyCache : Cache := fun _ => none

/-- Cache state after the three-update scenario for block 1. -/
def scenarioCache : Cache :=
  process_payload u2 (process_payload u1 (process_payload u0 emptyCache 0) 0) 0

/-- A pending block for block number 5 (for the stale-update counterexample). -/
def blk5 : OpBlock :=
  { header := { parent_hash := "0xp5", fee_recipient := "0xfee",
                state_root := "0xs5", receipts_root := "0xr5", logs_bloom := "",
                prev_randao := "0xrand", number := 5, gas_limit := 1000000,
                gas_used := 0, timestamp := 1234567999, extra_data := "",
                base_fee_per_gas := 1000, block_hash := "0xh5" },
    transactions := [], withdrawals := [] }

/-- Cache holding the pending block for block 5 and a highest-index tracker
value of 2. -/
def c1cache : Cache :=
  (emptyCache.set "pending" (.block blk5) (some 10) 0).set
    "highest_payload_index" (.nat 2) (some 10) 0

/-- A stale index-0 update targeting block 3 (< 5). -/
def pStale : FlashblocksPayloadV1 :=
  { index := 0
    base := some { base1 with block_number := 3 }
    diff := diff0
    metadata := some
      { receipts := [], new_account_balances := [], block_number := 3 } }

/-- A pending block whose only transaction is `txA` (for the call-simulation
divergence). -/
def blkA : OpBlock :=
  { header := { blk5.header with number := 1 }, transactions := [txA],
    withdrawals := [] }

/-- Cache holding `blkA` as the pending block. -/
def c3cache : Cache := emptyCache.set "pending" (.block blkA) (some 10) 0

/-- A tag distinguishing simulation results per bundle entry. -/
def simTag : TransactionRequest → List Nat
  | .from_transaction t => [1, t.maxFeePerGas]
  | .request id => [2, id]

/-- A concrete BaseNode simulation facility: one response per bundle
transaction, in bundle order, each tagged by its request. -/
def sim (reqs : List TransactionRequest) : List EthCallResponse :=
  reqs.map fun r => { value := some (simTag r) }

/-- An update for block 1 with a given index (base carried only at index 0). -/
def pIdx (i : Nat) : FlashblocksPayloadV1 :=
  { index := i, base := if i = 0 then some base1 else none, diff := diff0,
    metadata := some meta1 }

/-- Cache state after indices 0, 1, 3, 2 arrive for block 1. -/
def trackCache : Cache :=
  process_payload (pIdx 2)
    (process_payload (pIdx 3)
      (process_payload (pIdx 1) (process_payload (pIdx 0) emptyCache 0) 0) 0) 0

/-- The pending block cached by the first scenario update. -/
def block0 : OpBlock :=
  ((process_payload u0 emptyCache 0).getBlock "pending" 0).getD default

/-- The pending block of the full scenario. -/
def scenarioPendingBlock : OpBlock :=
  (scenarioCache.getBlock "pending" 0).getD default

/-- A concrete wire receipt (an arbitrary BaseNode answer). -/
def rpcRcpt : RpcReceipt :=
  { tx := none, receipt := rcptA, block := none, tx_index := none,
    all_receipts := none }

end Fix

/-! ## Proof-support predicates -/

/-- The order-preserving dedup step of `get_and_set_txs_and_receipts`: push each
hash onto the accumulator unless already present. -/
def hashAcc (acc : List String) (hs : List String) : List String :=
  hs.foldl (fun a h => if a.contains h then a else a ++ [h]) acc

/-- Every `Vec<String>` payload in the cache (the `tx_hashes:<n>` lists) is
duplicate-free. -/
def TxHashesNodup (c : Cache) : Prop :=
  ∀ k e l, c k = some e → e.value = CacheValue.strList l → l.Nodup

/-- `c` differs from `c₀` only by entries whose payload satisfies `okv`: the
write-footprint discipline of one `process_payload` run. -/
def WritesOK (okv : CacheValue → Prop) (c₀ c : Cache) : Prop :=
  ∀ k, c k = c₀ k ∨ ∃ e, c k = some e ∧ okv e.value

/-- `okv` holds of every non-block, non-string-list payload shape (those
written unconditionally by the actor). -/
def OkvShapes (okv : CacheValue → Prop) : Prop :=
  (∀ b, okv (.base b)) ∧ (∀ n, okv (.nat n)) ∧ (∀ l, okv (.bytesList l)) ∧
  (∀ l, okv (.receiptList l)) ∧ (∀ r, okv (.rcpt r)) ∧ (∀ t, okv (.tx t)) ∧
  (∀ a, okv (.addr a)) ∧ (∀ s, okv (.str s))

/-- `okv` holds of every block the actor assembles (the only block values it
writes). -/
def OkvBlock (okv : CacheValue → Prop) : Prop :=
  ∀ base diff txs b,
    (assemble_execution_payload base diff txs).try_into_block = some b →
    okv (.block b)

/-- `okv` holds of every hash list the actor writes: the dedup-fold of some
transaction hashes onto the list currently cached (by a cache reachable from
`c₀` by ok writes). -/
def OkvHash (okv : CacheValue → Prop) (c₀ : Cache) (now : Nat) : Prop :=
  ∀ c₁ n hs, WritesOK okv c₀ c₁ →
    okv (.strList (hashAcc ((c₁.getStrList (txHashesKey n) now).getD []) hs))

/-- Payloads in which every block value carries the placeholder base fee
1000. -/
def okvFee1000 : CacheValue → Prop :=
  fun v => ∀ b, v = .block b → b.header.base_fee_per_gas = 1000

/-- Payloads in which every string-list value is duplicate-free. -/
def okvNodupStr : CacheValue → Prop :=
  fun v => ∀ l, v = .strList l → l.Nodup

/-! ## Cache lemmas -/

theorem Cache.set_apply (c : Cache) (k : String) (v : CacheValue)
    (ttl : Option Nat) (now : Nat) (k' : String) :
    (c.set k v ttl now) k' =
      if k' = k then some ⟨v, ttl.map (now + ·)⟩ else c k' := rfl

theorem Cache.set_apply_ne {c : Cache} {k k' : String} (v : CacheValue)
    (ttl : Option Nat) (now : Nat) (h : k' ≠ k) :
    (c.set k v ttl now) k' = c k' := by
  simp [Cache.set, h]

theorem Cache.getRaw_congr {c₁ c₂ : Cache} {k : String} (now : Nat)
    (h : c₁ k = c₂ k) : c₁.getRaw k now = c₂.getRaw k now := by
  unfold Cache.getRaw
  rw [h]

theorem Cache.getBlock_congr {c₁ c₂ : Cache} {k : String} (now : Nat)
    (h : c₁ k = c₂ k) : c₁.getBlock k now = c₂.getBlock k now := by
  unfold Cache.getBlock
  rw [Cache.getRaw_congr now h]

theorem Cache.getStrList_congr {c₁ c₂ : Cache} {k : String} (now : Nat)
    (h : c₁ k = c₂ k) : c₁.getStrList k now = c₂.getStrList k now := by
  unfold Cache.getStrList
  rw [Cache.getRaw_congr now h]

theorem Cache.getNat_congr {c₁ c₂ : Cache} {k : String} (now : Nat)
    (h : c₁ k = c₂ k) : c₁.getNat k now = c₂.getNat k now := by
  unfold Cache.getNat
  rw [Cache.getRaw_congr now h]

theorem Cache.getRaw_set_self (c : Cache) (k : String) (v : CacheValue)
    (now : Nat) : (c.set k v (some 10) now).getRaw k now = some v := by
  unfold Cache.set Cache.getRaw
  simp

/-! ## Claim C10 -/

/-- C10: every cached pending block served by `getBlockByNumber` with the
pending tag has no withdrawals (`withdrawals = none`) and an empty uncles list,
regardless of the withdrawals stored in the cached block, and the
transformation drops them in both the full and hashes-only variants. -/
theorem c10_pending_block_no_withdrawals_no_uncles (cache : Cache) (now : Nat)
    (block : OpBlock) (full : Bool) (rb : RpcBlock)
    (h : block_by_number cache now .pending full = .served (some rb)) :
    rb.withdrawals = none ∧ rb.uncles = [] ∧
    (transform_block block full).withdrawals = none ∧
    (transform_block block full).uncles = [] := by
  have htb : ∀ (b : OpBlock) (f : Bool),
      (transform_block b f).withdrawals = none ∧
      (transform_block b f).uncles = [] := by
    intro b f
    cases f <;> simp [transform_block]
  have hrb : rb.withdrawals = none ∧ rb.uncles = [] := by
    unfold block_by_number at h
    cases hc : cache.getBlock "pending" now with
    | none =>
      rw [hc] at h
      simp at h
    | some b =>
      rw [hc] at h
      simp only [RpcServed.served.injEq, Option.some.injEq] at h
      rw [← h]
      exact htb b full
  exact ⟨hrb.1, hrb.2, (htb block full).1, (htb block full).2⟩

/-- Witness for C10 at a concrete cached pending block. -/
theorem c10_witness :
    (transform_block Fix.scenarioPendingBlock true).withdrawals = none ∧
    (transform_block Fix.scenarioPendingBlock true).uncles = [] ∧
    (transform_block Fix.scenarioPendingBlock true).withdrawals = none ∧
    (transform_block Fix.scenarioPendingBlock true).uncles = [] :=
  c10_pending_block_no_withdrawals_no_uncles Fix.scenarioCache 0
    Fix.scenarioPendingBlock true (transform_block Fix.scenarioPendingBlock true)
    (by decide)

/-! ## Claim C8 -/

/-- C8: `getTransactionReceipt` queries BaseNode first; the cached receipt
index is consulted only when BaseNode answers `Ok(None)`; a receipt or an error
from BaseNode is returned unchanged without reading the cache (the result is
independent of the cache state). -/
theorem c8_receipt_basenode_first (base_result : ReceiptResult)
    (cache cache' : Cache) (now now' : Nat) (tx_hash : String) :
    (base_result ≠ .ok none →
      get_transaction_receipt base_result cache now tx_hash = base_result ∧
      get_transaction_receipt base_result cache now tx_hash =
        get_transaction_receipt base_result cache' now' tx_hash) ∧
    (∀ r, base_result = .ok none →
      cache.getReceipt (receiptKey tx_hash) now = some r →
      get_transaction_receipt base_result cache now tx_hash =
        .ok (some (transform_receipt cache now r tx_hash
          ((cache.getNat (receiptBlockKey tx_hash) now).getD 0)))) ∧
    (base_result = .ok none →
      cache.getReceipt (receiptKey tx_hash) now = none →
      get_transaction_receipt base_result cache now tx_hash = base_result) := by
  refine ⟨?_, ?_, ?_⟩
  · intro hne
    rcases base_result with r | e
    · rcases r with _ | rr
      · exact absurd rfl hne
      · exact ⟨rfl, rfl⟩
    · exact ⟨rfl, rfl⟩
  · intro r hok hc
    subst hok
    unfold get_transaction_receipt
    rw [hc]
  · intro hok hc
    subst hok
    unfold get_transaction_receipt
    rw [hc]

/-- Witness for C8: a BaseNode error is propagated unchanged and the result
does not depend on the cache. -/
theorem c8_witness :
    get_transaction_receipt (.err "boom") Fix.emptyCache 0 "0xaa" =
      .err "boom" ∧
    get_transaction_receipt (.err "boom") Fix.emptyCache 0 "0xaa" =
      get_transaction_receipt (.err "boom") Fix.scenarioCache 5 "0xaa" :=
  (c8_receipt_basenode_first (.err "boom") Fix.emptyCache Fix.scenarioCache 0 5
    "0xaa").1 (by decide)

/-! ## Claim C4 -/

/-- C4 counterexample: run the reconnect loop through failure, fresh successful
connection, failure.  The claim predicts delays `[1, 1]` (reset to the initial
delay after the success); the code sleeps `[1, 2]` because `backoff` is never
reset. -/
theorem c4_counterexample :
    (backoff_run [ConnAttempt.failed, .connected, .failed]).2 = [1, 2] ∧
    (backoff_run [ConnAttempt.failed, .connected, .failed]).2 ≠ [1, 1] := by
  decide

/-- Characterization of the reconnect backoff from an arbitrary reachable
state. -/
theorem backoff_run_from_spec (attempts : List ConnAttempt) (j : Nat) :
    backoff_run_from (min (2 ^ j) MAX_BACKOFF) attempts =
      (min (2 ^ (j + failCount attempts)) MAX_BACKOFF,
       (List.range (failCount attempts)).map fun k =>
         min (2 ^ (j + k)) MAX_BACKOFF) := by
  induction attempts generalizing j with
  | nil => simp [backoff_run_from, failCount]
  | cons a rest ih =>
    cases a with
    | connected =>
      have hfc : failCount (ConnAttempt.connected :: rest) = failCount rest := by
        simp [failCount, List.countP_cons]
      rw [hfc]
      simpa [backoff_run_from, backoff_step] using ih j
    | failed =>
      have hfc : failCount (ConnAttempt.failed :: rest) = failCount rest + 1 := by
        simp [failCount, List.countP_cons]
      have hdouble : min (min (2 ^ j) MAX_BACKOFF * 2) MAX_BACKOFF =
          min (2 ^ (j + 1)) MAX_BACKOFF := by
        unfold MAX_BACKOFF
        rw [pow_succ]
        generalize (2 : Nat) ^ j = x
        omega
      rw [hfc]
      simp only [backoff_run_from, backoff_step, hdouble, ih (j + 1),
        Option.toList_some, Prod.mk.injEq]
      have hexp : j + 1 + failCount rest = j + (failCount rest + 1) := by omega
      constructor
      · rw [hexp]
      · rw [List.range_succ_eq_map, List.map_cons, List.map_map,
          List.singleton_append, Nat.add_zero]
        congr 1
        apply List.map_congr_left
        intro k _
        simp only [Function.comp_apply]
        have : j + 1 + k = j + Nat.succ k := by omega
        rw [this]

/-- C4 amended: the reconnect delay starts at 1 time unit and doubles to a
ceiling of 10 on each consecutive failure, but a fresh successful connection
does NOT reset it — the k-th failure overall (0-based, successes ignored)
sleeps `min(2^k, 10)`, and the backoff state after any attempt sequence is
`min(2^(total failures), 10)`. -/
theorem c4_amended (attempts : List ConnAttempt) :
    (backoff_run attempts).1 = min (2 ^ failCount attempts) MAX_BACKOFF ∧
    (backoff_run attempts).2 =
      (List.range (failCount attempts)).map fun k =>
        min (2 ^ k) MAX_BACKOFF := by
  have h := backoff_run_from_spec attempts 0
  have h0 : min ((2 : Nat) ^ 0) MAX_BACKOFF = initial_backoff := by decide
  rw [h0] at h
  unfold backoff_run
  rw [h]
  simp

/-! ## Claim C5 -/

/-- C5: an update with nonzero index and no cached base for its block number is
rejected before any cache mutation — the whole cache, the highest-index tracker
included, is unchanged at every key. -/
theorem c5_zero_index_gate (p : FlashblocksPayloadV1) (c : Cache) (now : Nat)
    (meta : Metadata) (h1 : p.metadata = some meta) (h2 : p.index ≠ 0)
    (h3 : c.getBase (baseKey meta.block_number) now = none) :
    ∀ k, process_payload p c now k = c k := by
  intro k
  unfold process_payload process_with_metadata
  simp [h1, h2, h3]

/-- Witness for C5: the index-1 update on an empty cache leaves the pending
key (and, per the theorem, every key) untouched. -/
theorem c5_witness :
    process_payload Fix.u1 Fix.emptyCache 0 "pending" =
      Fix.emptyCache "pending" :=
  c5_zero_index_gate Fix.u1 Fix.emptyCache 0
    { receipts := [("0xaa", Fix.rcptA)]
      new_account_balances := [("0xaddr1", "0x1234")]
      block_number := 1 }
    rfl (by decide) (by decide) "pending"

/-! ## Claim C3 -/

/-- C3 (code bug): the pending-tag `call` builds the bundle
`[pending transactions..., requested call]` and submits it to BaseNode's
simulation, but then returns `responses.first()` — the simulation result of the
FIRST transaction of the bundle — instead of the appended requested call's
result.  With `txA` pending and the request tagged 99, the served bytes are
`simTag(txA) = [1, 50]`, while the appended call's response (the bundle's last)
is `[2, 99]`. -/
theorem c3_call_returns_first_not_appended :
    eth_call Fix.sim Fix.c3cache 0 (.request 99) (some .pending) =
      .served (Fix.simTag (.from_transaction Fix.txA)) ∧
    (Fix.sim [TransactionRequest.from_transaction Fix.txA,
      TransactionRequest.request 99]).getLast? =
      some { value := some (Fix.simTag (.request 99)) } ∧
    Fix.simTag (.from_transaction Fix.txA) ≠ Fix.simTag (.request 99) := by
  decide

/-! ## Claim C2 -/

theorem store_balances_apply_notin (balances : List (Address × String))
    (c : Cache) (now : Nat) (addr : Address)
    (h : addr ∉ balances.map Prod.fst) :
    store_balances balances c now addr = c addr := by
  induction balances generalizing c with
  | nil => rfl
  | cons ab rest ih =>
    simp only [List.map_cons, List.mem_cons, not_or] at h
    have hstep : store_balances (ab :: rest) c now =
        store_balances rest (c.set ab.1 (.str ab.2) (some 10) now) now := rfl
    rw [hstep, ih _ h.2, Cache.set_apply_ne _ _ _ h.1]

theorem store_balances_apply_mem (balances : List (Address × String))
    (c : Cache) (now : Nat) (addr : Address) (s : String)
    (h1 : (balances.map Prod.fst).Nodup) (h2 : (addr, s) ∈ balances) :
    store_balances balances c now addr =
      some ⟨.str s, some (now + 10)⟩ := by
  induction balances generalizing c with
  | nil => cases h2
  | cons ab rest ih =>
    simp only [List.map_cons, List.nodup_cons] at h1
    have hstep : store_balances (ab :: rest) c now =
        store_balances rest (c.set ab.1 (.str ab.2) (some 10) now) now := rfl
    rcases List.mem_cons.mp h2 with heq | hmem
    · have haddr : addr = ab.1 := congrArg Prod.fst heq
      have hs : s = ab.2 := congrArg Prod.snd heq
      have hni : addr ∉ rest.map Prod.fst := by rw [haddr]; exact h1.1
      rw [hstep, store_balances_apply_notin rest _ now addr hni,
        Cache.set_apply, if_pos haddr, hs]
      rfl
    · rw [hstep, ih _ h1.2 hmem]

/-- C2: a pending-tag `getBalance` on an address whose balance the actor has
cached from an update's metadata (entry still unexpired, hex string decodable)
serves the cached value instead of delegating to BaseNode.  The actor stores
the metadata's hex string; the RPC layer reads the same key as a `U256`. -/
theorem c2_pending_balance_served_from_cache
    (balances : List (Address × String)) (c : Cache) (now now' : Nat)
    (addr : Address) (s : String) (v : Nat)
    (h1 : (balances.map Prod.fst).Nodup) (h2 : (addr, s) ∈ balances)
    (h3 : parseHexU256 s = some v) (h4 : now' < now + 10) :
    get_balance (store_balances balances c now) now' addr (some .pending) =
      .served v := by
  have happly := store_balances_apply_mem balances c now addr s h1 h2
  have hraw : (store_balances balances c now).getRaw addr now' =
      some (.str s) := by
    unfold Cache.getRaw
    rw [happly]
    simp [h4]
  unfold get_balance Cache.getU256
  rw [hraw]
  simp [h3]

/-- Witness for C2: the actor caches `0x1234` for `0xaddr1`; a pending-tag
balance read 5 time units later serves 4660 (= 0x1234). -/
theorem c2_witness :
    get_balance (store_balances [("0xaddr1", "0x1234")] Fix.emptyCache 0) 5
      "0xaddr1" (some .pending) = .served 4660 :=
  c2_pending_balance_served_from_cache [("0xaddr1", "0x1234")] Fix.emptyCache
    0 5 "0xaddr1" "0x1234" 4660 (by decide) (by decide) (by decide) (by decide)

/-! ## Claim C7 -/

/-- C7: for every accepted update, the highest-index tracker follows
`update_flashblocks_index`: at index 0 the previously tracked value plus 1 is
reported as the prior block's total update count and the tracker is reset to 0;
at a nonzero index the tracker becomes `max(previous, index)` and nothing is
reported; and the concrete arrival order 0, 1, 3, 2 for one block leaves the
tracker at 3 after the late 2. -/
theorem c7_highest_index_tracker (c : Cache) (now i : Nat) :
    (∀ v, i = 0 → c.getNat "highest_payload_index" now = some v →
      (update_flashblocks_index i c now).1.getNat "highest_payload_index" now =
        some 0 ∧
      (update_flashblocks_index i c now).2 = some (v + 1)) ∧
    (i ≠ 0 →
      (update_flashblocks_index i c now).1.getNat "highest_payload_index" now =
        some (max ((c.getNat "highest_payload_index" now).getD 0) i) ∧
      (update_flashblocks_index i c now).2 = none) ∧
    Fix.trackCache.getNat "highest_payload_index" 0 = some 3 := by
  refine ⟨?_, ?_, by decide⟩
  · intro v h0 hv
    subst h0
    unfold update_flashblocks_index
    rw [if_pos rfl]
    refine ⟨?_, by rw [hv]; rfl⟩
    unfold Cache.getNat
    rw [Cache.getRaw_set_self]
  · intro hne
    unfold update_flashblocks_index
    rw [if_neg hne]
    cases hv : c.getNat "highest_payload_index" now with
    | none =>
      simp only [Option.getD_none]
      rw [if_pos (Nat.pos_of_ne_zero hne)]
      refine ⟨?_, rfl⟩
      show (c.set "highest_payload_index" (CacheValue.nat i) (some 10)
        now).getNat "highest_payload_index" now = some (max 0 i)
      unfold Cache.getNat
      rw [Cache.getRaw_set_self, max_eq_right (Nat.zero_le i)]
    | some v =>
      simp only [Option.getD_some]
      by_cases hgt : i > v
      · rw [if_pos hgt]
        refine ⟨?_, rfl⟩
        show (c.set "highest_payload_index" (CacheValue.nat i) (some 10)
          now).getNat "highest_payload_index" now = some (max v i)
        unfold Cache.getNat
        rw [Cache.getRaw_set_self, max_eq_right (Nat.le_of_lt hgt)]
      · rw [if_neg hgt]
        refine ⟨?_, rfl⟩
        show c.getNat "highest_payload_index" now = some (max v i)
        rw [hv, max_eq_left (Nat.le_of_not_lt hgt)]

/-- Witness for C7: a tracker at 2 is reset by index 0 and reported as 3
updates for the prior block. -/
theorem c7_witness :
    (update_flashblocks_index 0 Fix.c1cache 0).1.getNat
      "highest_payload_index" 0 = some 0 ∧
    (update_flashblocks_index 0 Fix.c1cache 0).2 = some 3 :=
  (c7_highest_index_tracker Fix.c1cache 0 0).1 2 rfl (by decide)

/-! ## Claim C1 -/

/-- C1 counterexample: with the pending block for block 5 cached and the
highest-index tracker at 2, processing a stale index-0 update for block 3
(3 < 5) rewrites `highest_payload_index` to 0 — the stale check runs only
AFTER `update_flashblocks_index`, so the cache is not left entirely
unchanged. -/
theorem c1_counterexample :
    Fix.c1cache.getBlock "pending" 0 = some Fix.blk5 ∧
    Fix.blk5.number = 5 ∧
    Fix.pStale.metadata.map Metadata.block_number = some 3 ∧
    process_payload Fix.pStale Fix.c1cache 0 "highest_payload_index" ≠
      Fix.c1cache "highest_payload_index" := by
  decide

theorem update_flashblocks_index_apply_ne (i : Nat) (c : Cache) (now : Nat)
    (k : String) (h : k ≠ "highest_payload_index") :
    (update_flashblocks_index i c now).1 k = c k := by
  simp only [update_flashblocks_index]
  split
  · exact Cache.set_apply_ne _ _ _ h
  · split
    · exact Cache.set_apply_ne _ _ _ h
    · rfl

/-- C1 amended: once a pending block for block N is cached, an update with
block number < N leaves every key except `highest_payload_index` unchanged;
the highest-index tracker alone may still be rewritten before the stale update
is discarded. -/
theorem c1_stale_update_touches_only_tracker (p : FlashblocksPayloadV1)
    (c : Cache) (now : Nat) (meta : Metadata) (b : OpBlock)
    (h1 : p.metadata = some meta) (h2 : c.getBlock "pending" now = some b)
    (h3 : meta.block_number < b.number) :
    ∀ k, k ≠ "highest_payload_index" → process_payload p c now k = c k := by
  intro k hk
  unfold process_payload process_with_metadata
  simp only [h1]
  by_cases hgate : p.index ≠ 0 ∧
      (c.getBase (baseKey meta.block_number) now).isNone = true
  · rw [if_pos hgate]
  · rw [if_neg hgate]
    have hpend : ((update_flashblocks_index p.index c now).1).getBlock
        "pending" now = some b := by
      rw [Cache.getBlock_congr now
        (update_flashblocks_index_apply_ne p.index c now "pending"
          (by decide))]
      exact h2
    simp only [hpend]
    rw [if_pos h3]
    exact update_flashblocks_index_apply_ne p.index c now k hk

/-- Witness for C1 (amended): the stale update leaves the pending key
untouched. -/
theorem c1_witness :
    process_payload Fix.pStale Fix.c1cache 0 "pending" =
      Fix.c1cache "pending" :=
  c1_stale_update_touches_only_tracker Fix.pStale Fix.c1cache 0
    { receipts := [], new_account_balances := [], block_number := 3 }
    Fix.blk5 rfl (by decide) (by decide) "pending" (by decide)

/-! ## Write-footprint lemmas for `process_payload` -/

theorem WritesOK.refl (okv : CacheValue → Prop) (c₀ : Cache) :
    WritesOK okv c₀ c₀ :=
  fun _ => Or.inl rfl

theorem WritesOK.set {okv : CacheValue → Prop} {c₀ c : Cache}
    (h : WritesOK okv c₀ c) (k : String) {v : CacheValue} (ttl : Option Nat)
    (t : Nat) (hv : okv v) : WritesOK okv c₀ (c.set k v ttl t) := by
  intro k'
  by_cases hk : k' = k
  · subst hk
    right
    exact ⟨⟨v, ttl.map (t + ·)⟩, by simp [Cache.set], hv⟩
  · rw [Cache.set_apply_ne _ _ _ hk]
    exact h k'

theorem writesOK_update_flashblocks_index {okv : CacheValue → Prop}
    {c₀ c : Cache} (i now : Nat) (h : WritesOK okv c₀ c)
    (hnat : ∀ n, okv (.nat n)) :
    WritesOK okv c₀ ((update_flashblocks_index i c now).1) := by
  simp only [update_flashblocks_index]
  split
  · exact h.set _ _ _ (hnat 0)
  · split
    · exact h.set _ _ _ (hnat i)
    · exact h

theorem writesOK_cache_tx_entries {okv : CacheValue → Prop} {c₀ c : Cache}
    (bn now idx : Nat) (t : OpTransactionSigned) (h : WritesOK okv c₀ c)
    (hnat : ∀ n, okv (.nat n)) (htx : ∀ t', okv (.tx t'))
    (haddr : ∀ a, okv (.addr a)) :
    WritesOK okv c₀ (cache_tx_entries bn now c idx t) := by
  cases hg : c.getTx t.txHash now with
  | some _ => simpa only [cache_tx_entries, hg] using h
  | none =>
    cases hs : t.sender with
    | some sender =>
      simp only [cache_tx_entries, hg, hs]
      exact ((((h.set _ _ _ (htx t)).set _ _ _ (hnat idx)).set _ _ _
        (hnat _)).set _ _ _ (haddr sender)).set _ _ _ (hnat bn)
    | none =>
      simp only [cache_tx_entries, hg, hs]
      exact (h.set _ _ _ (htx t)).set _ _ _ (hnat idx)

theorem writesOK_processOneTx {okv : CacheValue → Prop} {c₀ : Cache}
    (bn : Nat) (meta : Metadata) (now : Nat)
    (acc : Cache × List String × List OpReceipt)
    (it : Nat × OpTransactionSigned) (h : WritesOK okv c₀ acc.1)
    (hnat : ∀ n, okv (.nat n)) (htx : ∀ t', okv (.tx t'))
    (haddr : ∀ a, okv (.addr a)) (hrcpt : ∀ r, okv (.rcpt r)) :
    WritesOK okv c₀ (processOneTx bn meta now acc it).1 := by
  have hmid := writesOK_cache_tx_entries bn now it.1 it.2 h hnat htx haddr
  cases hl : lookupAssoc meta.receipts it.2.txHash with
  | some receipt =>
    simp only [processOneTx, hl]
    exact (hmid.set _ _ _ (hrcpt receipt)).set _ _ _ (hnat bn)
  | none =>
    simpa only [processOneTx, hl] using hmid

theorem writesOK_foldl_processOneTx {okv : CacheValue → Prop} {c₀ : Cache}
    (bn : Nat) (meta : Metadata) (now : Nat)
    (l : List (Nat × OpTransactionSigned))
    (acc : Cache × List String × List OpReceipt) (h : WritesOK okv c₀ acc.1)
    (hnat : ∀ n, okv (.nat n)) (htx : ∀ t', okv (.tx t'))
    (haddr : ∀ a, okv (.addr a)) (hrcpt : ∀ r, okv (.rcpt r)) :
    WritesOK okv c₀ ((l.foldl (processOneTx bn meta now) acc).1) := by
  induction l generalizing acc with
  | nil => exact h
  | cons hd tl ih =>
    rw [List.foldl_cons]
    exact ih _ (writesOK_processOneTx bn meta now acc hd h hnat htx haddr hrcpt)

theorem processOneTx_hashes (bn : Nat) (meta : Metadata) (now : Nat)
    (acc : Cache × List String × List OpReceipt)
    (it : Nat × OpTransactionSigned) :
    (processOneTx bn meta now acc it).2.1 =
      if acc.2.1.contains it.2.txHash then acc.2.1
      else acc.2.1 ++ [it.2.txHash] := by
  cases hl : lookupAssoc meta.receipts it.2.txHash with
  | some receipt => simp only [processOneTx, hl]
  | none => simp only [processOneTx, hl]

theorem foldl_processOneTx_hashes (bn : Nat) (meta : Metadata) (now : Nat)
    (l : List (Nat × OpTransactionSigned)) :
    ∀ acc, ((l.foldl (processOneTx bn meta now) acc).2.1 =
      hashAcc acc.2.1 (l.map (fun it => it.2.txHash))) := by
  induction l with
  | nil => intro acc; rfl
  | cons hd tl ih =>
    intro acc
    rw [List.foldl_cons, ih, processOneTx_hashes]
    rfl

theorem enumFrom_map_txHash (l : List OpTransactionSigned) :
    ∀ n, ((List.enumFrom n l).map (fun it => it.2.txHash)) =
      l.map OpTransactionSigned.txHash := by
  induction l with
  | nil => intro n; rfl
  | cons hd tl ih =>
    intro n
    simp only [List.enumFrom, List.map_cons, ih]

/-- Reading back the per-block hash list right after
`get_and_set_txs_and_receipts`: it is the dedup-fold of the block's transaction
hashes onto the previously cached list. -/
theorem gastr_txhashes_readback (block : OpBlock) (bn : Nat) (c : Cache)
    (meta : Metadata) (now : Nat) :
    (get_and_set_txs_and_receipts block bn c meta now).2.getStrList
        (txHashesKey bn) now =
      some (hashAcc ((c.getStrList (txHashesKey bn) now).getD [])
        (block.transactions.map OpTransactionSigned.txHash)) := by
  simp only [get_and_set_txs_and_receipts]
  unfold Cache.getStrList
  rw [Cache.getRaw_set_self, foldl_processOneTx_hashes]
  rw [show block.transactions.enum = List.enumFrom 0 block.transactions
    from rfl]
  rw [enumFrom_map_txHash]

theorem writesOK_gastr {okv : CacheValue → Prop} {c₀ : Cache}
    (block : OpBlock) (bn : Nat) (c : Cache) (meta : Metadata) (now : Nat)
    (h : WritesOK okv c₀ c) (hnat : ∀ n, okv (.nat n))
    (htx : ∀ t', okv (.tx t')) (haddr : ∀ a, okv (.addr a))
    (hrcpt : ∀ r, okv (.rcpt r)) (hha : OkvHash okv c₀ now) :
    WritesOK okv c₀ (get_and_set_txs_and_receipts block bn c meta now).2 := by
  simp only [get_and_set_txs_and_receipts]
  apply WritesOK.set
  · exact writesOK_foldl_processOneTx bn meta now _ _ h hnat htx haddr hrcpt
  · rw [foldl_processOneTx_hashes]
    exact hha c bn _ h

theorem gastx_ok_shape {dts : List TxBytes} {i bn : Nat} {c : Cache}
    {now : Nat} {txs : List TxBytes} {c' : Cache}
    (hok : get_and_set_transactions dts i bn c now = .ok (txs, c')) :
    c' = c.set (diffTransactionsKey bn) (.bytesList txs) (some 10) now := by
  simp only [get_and_set_transactions] at hok
  split at hok
  · cases hok
  · rename_i heq
    injection hok with hok
    injection hok with h1 h2
    rw [← h2, h1]

theorem gasr_ok_shape {i bn : Nat} {c : Cache} {dr : List OpReceipt}
    {now : Nat} {r : List OpReceipt} {c' : Cache}
    (hok : get_and_set_all_receipts i bn c dr now = .ok (r, c')) :
    c' = c.set (pendingReceiptsKey bn) (.receiptList r) (some 10) now := by
  simp only [get_and_set_all_receipts] at hok
  split at hok
  · cases hok
  · rename_i heq
    injection hok with hok
    injection hok with h1 h2
    rw [← h2, h1]

theorem writesOK_store_balances {okv : CacheValue → Prop} {c₀ : Cache}
    (balances : List (Address × String)) (c : Cache) (now : Nat)
    (h : WritesOK okv c₀ c) (hstr : ∀ s, okv (.str s)) :
    WritesOK okv c₀ (store_balances balances c now) := by
  induction balances generalizing c with
  | nil => exact h
  | cons ab rest ih => exact ih _ (h.set _ _ _ (hstr ab.2))

theorem writesOK_process_body {okv : CacheValue → Prop} {c₀ : Cache}
    (i : Nat) (meta : Metadata) (diff : ExecutionPayloadFlashblockDeltaV1)
    (base : ExecutionPayloadBaseV1) (c : Cache) (now : Nat)
    (h : WritesOK okv c₀ c) (hsh : OkvShapes okv) (hbl : OkvBlock okv)
    (hha : OkvHash okv c₀ now) :
    WritesOK okv c₀ (process_body i meta diff base c now) := by
  obtain ⟨hbase, hnat, hbytes, hrlist, hrcpt, htx, haddr, hstr⟩ := hsh
  simp only [process_body]
  split
  · exact h
  · rename_i txs c2 hok
    have hc2 : WritesOK okv c₀ c2 := by
      rw [gastx_ok_shape hok]
      exact h.set _ _ _ (hbytes txs)
    split
    · exact hc2
    · rename_i block htb
      have hfee := hbl base diff txs block htb
      have hc3 := (hc2.set "pending" (some 10) now hfee).set
        (blockKey meta.block_number) (some 10) now hfee
      have hc4 := writesOK_gastr block meta.block_number _ meta now hc3 hnat
        htx haddr hrcpt hha
      split
      · exact hc4
      · rename_i r c5 hor
        have hc5 : WritesOK okv c₀ c5 := by
          rw [gasr_ok_shape hor]
          exact hc4.set _ _ _ (hrlist r)
        exact writesOK_store_balances _ _ _ hc5 hstr

theorem writesOK_process_resolve_base {okv : CacheValue → Prop} {c₀ : Cache}
    (p : FlashblocksPayloadV1) (meta : Metadata) (c : Cache) (now : Nat)
    (h : WritesOK okv c₀ c) (hsh : OkvShapes okv) (hbl : OkvBlock okv)
    (hha : OkvHash okv c₀ now) :
    WritesOK okv c₀ (process_resolve_base p meta c now) := by
  unfold process_resolve_base
  cases hb : p.base with
  | some base =>
    exact writesOK_process_body _ _ _ _ _ _ (h.set _ _ _ (hsh.1 base)) hsh
      hbl hha
  | none =>
    cases hg : c.getBase (baseKey meta.block_number) now with
    | some base => exact writesOK_process_body _ _ _ _ _ _ h hsh hbl hha
    | none => exact h

/-- Every cache reachable by one `process_payload` step differs from the input
cache only by entries whose payloads satisfy `okv`. -/
theorem process_payload_writesOK (okv : CacheValue → Prop)
    (p : FlashblocksPayloadV1) (c : Cache) (now : Nat) (hsh : OkvShapes okv)
    (hbl : OkvBlock okv) (hha : OkvHash okv c now) :
    WritesOK okv c (process_payload p c now) := by
  unfold process_payload
  cases hm : p.metadata with
  | none => exact WritesOK.refl okv c
  | some meta =>
    simp only [process_with_metadata]
    split
    · exact WritesOK.refl okv c
    · have h1 := writesOK_update_flashblocks_index p.index now
        (WritesOK.refl okv c) hsh.2.1
      split
      · split
        · exact h1
        · exact writesOK_process_resolve_base p meta _ now h1 hsh hbl hha
      · exact writesOK_process_resolve_base p meta _ now h1 hsh hbl hha

theorem getRaw_entry {c : Cache} {k : String} {t : Nat} {v : CacheValue}
    (h : c.getRaw k t = some v) : ∃ e, c k = some e ∧ e.value = v := by
  unfold Cache.getRaw at h
  cases hck : c k with
  | none =>
    rw [hck] at h
    simp at h
  | some e =>
    rw [hck] at h
    have h2 : (match e.expiry with
      | none => some e.value
      | some t1 => if t < t1 then some e.value else none) = some v := h
    refine ⟨e, rfl, ?_⟩
    cases hexp : e.expiry with
    | none =>
      rw [hexp] at h2
      exact Option.some.inj h2
    | some tt =>
      rw [hexp] at h2
      have h3 : (if t < tt then some e.value else none) = some v := h2
      by_cases hlt : t < tt
      · rw [if_pos hlt] at h3
        exact Option.some.inj h3
      · rw [if_neg hlt] at h3
        simp at h3

theorem blockMatchOpt_eq {o : Option CacheValue} {b : OpBlock}
    (h : (match o with
      | some (CacheValue.block bb) => some bb
      | _ => none) = some b) : o = some (.block b) := by
  cases o with
  | none => simp at h
  | some v => cases v <;> simp_all

theorem strListMatchOpt_eq {o : Option CacheValue} {l : List String}
    (h : (match o with
      | some (CacheValue.strList ll) => some ll
      | _ => none) = some l) : o = some (.strList l) := by
  cases o with
  | none => simp at h
  | some v => cases v <;> simp_all

theorem getBlock_entry {c : Cache} {k : String} {t : Nat} {b : OpBlock}
    (h : c.getBlock k t = some b) :
    ∃ e, c k = some e ∧ e.value = CacheValue.block b := by
  unfold Cache.getBlock at h
  have hr := blockMatchOpt_eq h
  exact getRaw_entry hr

theorem getStrList_entry {c : Cache} {k : String} {t : Nat} {l : List String}
    (h : c.getStrList k t = some l) :
    ∃ e, c k = some e ∧ e.value = CacheValue.strList l := by
  unfold Cache.getStrList at h
  have hr := strListMatchOpt_eq h
  exact getRaw_entry hr

/-! ## Claim C9 -/

/-- C9: any block that `process_payload` newly caches (the pending block, under
any key) carries the fixed placeholder base fee 1000 — the upstream-provided
base fee of the update's Base never appears in a cached pending block. -/
theorem c9_pending_block_base_fee_is_1000 (p : FlashblocksPayloadV1)
    (c : Cache) (now t : Nat) (k : String) (b : OpBlock)
    (h : (process_payload p c now).getBlock k t = some b) :
    (process_payload p c now).getBlock k t = c.getBlock k t ∨
    b.header.base_fee_per_gas = 1000 := by
  have hshapes : OkvShapes okvFee1000 := by
    unfold OkvShapes
    exact ⟨(fun _ _ hh => nomatch hh), (fun _ _ hh => nomatch hh),
      (fun _ _ hh => nomatch hh), (fun _ _ hh => nomatch hh),
      (fun _ _ hh => nomatch hh), (fun _ _ hh => nomatch hh),
      (fun _ _ hh => nomatch hh), (fun _ _ hh => nomatch hh)⟩
  have hbl : OkvBlock okvFee1000 := by
    intro base diff txs bb htb b' hb'
    simp only [ExecutionPayloadV3.try_into_block] at htb
    injection htb with htb
    rw [← htb] at hb'
    injection hb' with hb'
    rw [← hb']
    rfl
  have hha : OkvHash okvFee1000 c now := fun _ _ _ _ _ hh => nomatch hh
  have hw := process_payload_writesOK okvFee1000 p c now hshapes hbl hha
  rcases hw k with heq | ⟨e, he, hok⟩
  · exact Or.inl (Cache.getBlock_congr t heq)
  · right
    rcases getBlock_entry h with ⟨e', he', hv'⟩
    rw [he] at he'
    injection he' with hee
    exact hok b (by rw [hee]; exact hv')

/-- Witness for C9: the first scenario update carries an upstream base fee of
777, yet the cached pending block has base fee 1000. -/
theorem c9_witness :
    (process_payload Fix.u0 Fix.emptyCache 0).getBlock "pending" 0 =
      Fix.emptyCache.getBlock "pending" 0 ∨
    Fix.block0.header.base_fee_per_gas = 1000 :=
  c9_pending_block_base_fee_is_1000 Fix.u0 Fix.emptyCache 0 0 "pending"
    Fix.block0 (by decide)

/-! ## Claim C6 -/

theorem contains_eq_true_iff (l : List String) (x : String) :
    l.contains x = true ↔ x ∈ l := by
  simp [List.contains]

theorem hashAcc_cons (acc : List String) (hd : String) (tl : List String) :
    hashAcc acc (hd :: tl) =
      hashAcc (if acc.contains hd then acc else acc ++ [hd]) tl := rfl

theorem hashAcc_nodup (hs : List String) :
    ∀ acc, acc.Nodup → (hashAcc acc hs).Nodup := by
  induction hs with
  | nil => exact fun acc h => h
  | cons hd tl ih =>
    intro acc hacc
    rw [hashAcc_cons]
    by_cases hc : acc.contains hd
    · rw [if_pos hc]
      exact ih acc hacc
    · rw [if_neg hc]
      apply ih
      have hmem : hd ∉ acc := fun hm => hc ((contains_eq_true_iff acc hd).mpr hm)
      simp [List.nodup_append, hacc, hmem]

theorem hashAcc_prefix (hs : List String) :
    ∀ acc, acc <+: hashAcc acc hs := by
  induction hs with
  | nil => exact fun acc => List.prefix_refl acc
  | cons hd tl ih =>
    intro acc
    rw [hashAcc_cons]
    by_cases hc : acc.contains hd
    · rw [if_pos hc]
      exact ih acc
    · rw [if_neg hc]
      exact (List.prefix_append acc [hd]).trans (ih (acc ++ [hd]))

theorem hashAcc_mem (hs : List String) :
    ∀ acc x, x ∈ hashAcc acc hs ↔ x ∈ acc ∨ x ∈ hs := by
  induction hs with
  | nil =>
    intro acc x
    simp [hashAcc]
  | cons hd tl ih =>
    intro acc x
    rw [hashAcc_cons]
    by_cases hc : acc.contains hd
    · rw [if_pos hc, ih]
      have hmem : hd ∈ acc := (contains_eq_true_iff acc hd).mp hc
      constructor
      · rintro (hx | hx)
        · exact Or.inl hx
        · exact Or.inr (List.mem_cons_of_mem _ hx)
      · rintro (hx | hx)
        · exact Or.inl hx
        · rcases List.mem_cons.mp hx with rfl | hx
          · exact Or.inl hmem
          · exact Or.inr hx
    · rw [if_neg hc, ih]
      simp only [List.mem_append, List.mem_cons, List.mem_singleton]
      tauto

/-- C6: for every sequence of accepted updates for one block, the cached
`tx_hashes:<n>` list holds each transaction hash exactly once (duplicate-free
lists are preserved by every `process_payload` step), each update extends the
previous list in place (old list is a prefix, new entries are exactly the
block's transaction hashes, in first-seen order), and the spec's scenario —
update(index=1, txs=[A]) then update(index=2, txs=[B,A]) — yields the hash
list [A, B]. -/
theorem c6_tx_hashes_dedup_first_seen_order :
    (∀ p c now, TxHashesNodup c → TxHashesNodup (process_payload p c now)) ∧
    (∀ block n c meta now old,
      Cache.getStrList c (txHashesKey n) now = some old → old.Nodup →
      ∃ new,
        (get_and_set_txs_and_receipts block n c meta now).2.getStrList
            (txHashesKey n) now = some new ∧
        new.Nodup ∧ old <+: new ∧
        (∀ x, x ∈ new ↔ x ∈ old ∨
          x ∈ block.transactions.map OpTransactionSigned.txHash)) ∧
    Fix.scenarioCache.getStrList (txHashesKey 1) 0 =
      some [Fix.txA.txHash, Fix.txB.txHash] := by
  refine ⟨?_, ?_, by decide⟩
  · intro p c now hinv
    have hshapes : OkvShapes okvNodupStr := by
      unfold OkvShapes
      exact ⟨(fun _ _ hh => nomatch hh), (fun _ _ hh => nomatch hh),
        (fun _ _ hh => nomatch hh), (fun _ _ hh => nomatch hh),
        (fun _ _ hh => nomatch hh), (fun _ _ hh => nomatch hh),
        (fun _ _ hh => nomatch hh), (fun _ _ hh => nomatch hh)⟩
    have hbl : OkvBlock okvNodupStr := fun _ _ _ _ _ _ hh => nomatch hh
    have hha : OkvHash okvNodupStr c now := by
      intro c₁ n hs hw l hl
      injection hl with hl
      rw [← hl]
      apply hashAcc_nodup
      cases hg : c₁.getStrList (txHashesKey n) now with
      | none => simp
      | some old =>
        simp only [Option.getD_some]
        rcases getStrList_entry hg with ⟨e, he, hv⟩
        rcases hw (txHashesKey n) with heq | ⟨e', he', hok⟩
        · rw [heq] at he
          exact hinv _ e old he hv
        · rw [he'] at he
          injection he with hee
          exact hok old (by rw [hee]; exact hv)
    have hw := process_payload_writesOK okvNodupStr p c now hshapes hbl hha
    intro k e l he hv
    rcases hw k with heq | ⟨e', he', hok⟩
    · rw [heq] at he
      exact hinv k e l he hv
    · rw [he'] at he
      injection he with hee
      exact hok l (by rw [hee]; exact hv)
  · intro block n c meta now old hold hnd
    refine ⟨hashAcc old (block.transactions.map OpTransactionSigned.txHash),
      ?_, hashAcc_nodup _ old hnd, hashAcc_prefix _ old,
      fun x => hashAcc_mem _ old x⟩
    rw [gastr_txhashes_readback, hold]
    rfl

/-- Witness for C6: duplicate-freeness is preserved starting from the empty
cache. -/
theorem c6_witness : TxHashesNodup (process_payload Fix.u0 Fix.emptyCache 0) :=
  c6_tx_hashes_dedup_first_seen_order.1 Fix.u0 Fix.emptyCache 0
    (fun k e l he _ => by simp [Fix.emptyCache] at he)

end NodeReth
